import Mathlib

/-!
Verification of the pdf-sealr rendering/compositing/encoding pipeline.

Shallow embedding of `src/main-v1-5-0-alpha.py` (and, where the claims cite
it, `src/main-v1-0-0-alpha.py`).  External library behaviour (PyMuPDF page
rendering, PIL font loading / text measurement / drawing) is represented by
explicit oracle parameters: a raster page is an abstract pixel buffer, a
fallible library call is a `Bool` flag saying whether it raises, and text
measurement is a pair of bounding-box dimensions supplied as input.  Python
floats are modelled as exact rationals; Python `int(...)` truncation toward
zero is `pytrunc`.
-/

set_option autoImplicit false

namespace PdfSealr

/-- RGBA fill colour used for the watermark text (`fill = (180, 180, 180, alpha)`). -/
structure Fill where
  r : ℕ
  g : ℕ
  b : ℕ
  a : ℤ
deriving DecidableEq, Repr

/-- The transparent overlay drawn by `apply_watermark` before compositing:
the list of text draw positions, the text, the resolved font
(`some (path, px)` for a truetype font, `none` for PIL's default bitmap
font), the fill colour, and whether the layer was rotated 45° (the rotation
re-centers into a canvas of the base image's size, per
`_rotate_layer_to_canvas_size`). -/
structure Overlay where
  positions : List (ℚ × ℚ)
  text : String
  font : Option (String × ℤ)
  fill : Fill
  rotated45 : Bool
deriving DecidableEq, Repr

/-- Abstract pixel buffer: either raw rasterized page content (identified by
an id chosen by the rasterizer oracle) or the alpha-composite of a buffer
with a watermark overlay. -/
inductive Pixels where
  | source (id : ℕ)
  | composited (base : Pixels) (ov : Overlay)
deriving DecidableEq, Repr

/-- An in-memory RGB raster (PIL `Image`): pixel width, height and buffer. -/
structure Image where
  width : ℕ
  height : ℕ
  px : Pixels
deriving DecidableEq, Repr

/-- `WatermarkSpec` of v1.5.0 (`main-v1-5-0-alpha.py` lines 41-46). -/
structure WatermarkSpec where
  text : String
  size_pct : ℚ
  opacity : ℤ
  tile_padding_pct : ℚ
deriving DecidableEq, Repr

/-- `WatermarkSpec` of v1.0.0 (`main-v1-0-0-alpha.py` lines 46-51). -/
structure WatermarkSpecV100 where
  text : String
  size_pct : ℚ
  tile_px : ℤ
  opacity : ℤ
deriving DecidableEq, Repr

/-- `FlattenOptions` of v1.5.0 (`main-v1-5-0-alpha.py` lines 48-55). -/
structure FlattenOptions where
  dpi : ℤ
  jpeg_quality : ℤ
  export_format : String
  watermark : WatermarkSpec
  tiled : Bool
  rotate_45 : Bool
deriving DecidableEq, Repr

/-- The ordered system font probe list `SYSTEM_SANS` (v1.5.0 lines 20-26). -/
def SYSTEM_SANS : List String :=
  ["C:\\Windows\\Fonts\\segoeui.ttf",
   "C:\\Windows\\Fonts\\arial.ttf",
   "/System/Library/Fonts/SFNS.ttf",
   "/System/Library/Fonts/Supplemental/Arial Unicode.ttf",
   "/usr/share/fonts/truetype/dejavu/DejaVuSans.ttf"]

/-- `find_font` (v1.5.0 lines 28-32): first probe path that exists on the
filesystem (`fsExists` is the `os.path.exists` oracle), else `None`. -/
def find_font (fsExists : String → Bool) : Option String :=
  SYSTEM_SANS.find? fsExists

/-- Python `int(q)` on an exact rational: truncation toward zero. -/
def pytrunc (q : ℚ) : ℤ :=
  if 0 ≤ q then ⌊q⌋ else ⌈q⌉

/-- `text_size` (v1.5.0 lines 34-39): bbox width/height clamped below by 1.
The raw bbox dimensions are measurement-oracle inputs. -/
def text_size (bboxW bboxH : ℤ) : ℤ × ℤ :=
  (max 1 bboxW, max 1 bboxH)

/-- v1.5.0 line 83: `font_px = max(4, int(img.width * (wm.size_pct / 100.0)))`. -/
def font_px_v150 (w : ℕ) (size_pct : ℚ) : ℤ :=
  max 4 (pytrunc ((w : ℚ) * (size_pct / 100)))

/-- Follows the spec's words (§4.2 step 2), for comparison with the code's
`font_px_v150`: "Compute `font_px = max(4, round(base.width * spec.size_pct
/ 100))`", with `round` denoting rounding to the nearest integer. -/
def fontPxSpecRounded (w : ℕ) (size_pct : ℚ) : ℤ :=
  max 4 (round ((w : ℚ) * (size_pct / 100)))

/-- v1.5.0 line 93: opacity clamped into `[0, 255]`. -/
def clampOpacity (o : ℤ) : ℤ :=
  max 0 (min 255 o)

/-- v1.5.0 line 97: `pad_px = int(font_px * (wm.tile_padding_pct / 100.0))`. -/
def pad_px_v150 (fpx : ℤ) (pct : ℚ) : ℤ :=
  pytrunc ((fpx : ℚ) * (pct / 100))

/-- v1.5.0 lines 98-99: `step = max(1, text_dim + pad_px)`. -/
def stepOf (t pad : ℤ) : ℤ :=
  max 1 (t + pad)

/-- Font resolution of v1.5.0 lines 84-88: `truetype(font_path, font_px)` if a
probe path exists (falling back to the default bitmap font when the load
raises), else the default font. -/
def resolveFont (fsExists : String → Bool) (fontLoadFails : Bool) (fpx : ℤ) :
    Option (String × ℤ) :=
  match find_font fsExists with
  | some p => if fontLoadFails then none else some (p, fpx)
  | none => none

/-- The integer positions visited by a Python loop of the shape
`x = start; while x < stop: ...; x += step` (v1.5.0 lines 112-118 use this
shape on both axes).  The guard `0 < step` matches the code, where every
step is `max(1, ...)`. -/
def drawRange (stop step start : ℤ) : List ℤ :=
  if _h : start < stop ∧ 0 < step then
    start :: drawRange stop step (start + step)
  else
    []
termination_by (stop - start).toNat
decreasing_by
  omega

/-- v1.5.0 lines 109, 113: every other row is shifted left by
`offset = step_x // 2`. -/
def offsetForRow (stepx : ℤ) (row : ℕ) : ℤ :=
  if row % 2 = 1 then stepx / 2 else 0

/-- The `y` values of the tiling loop (v1.5.0 lines 104, 106, 111-112, 118):
`y = -step_y; while y < img.height + step_y: ...; y += step_y`. -/
def tileRowsY (h stepy : ℤ) : List ℤ :=
  drawRange (h + stepy) stepy (-stepy)

/-- The `x` values of row `row` of the tiling loop (v1.5.0 lines 103, 105,
113-117): `x = -step_x - x_offset; while x < img.width + step_x: ...;
x += step_x`. -/
def tileRowXs (w stepx : ℤ) (row : ℕ) : List ℤ :=
  drawRange (w + stepx) stepx (-stepx - offsetForRow stepx row)

/-- All `(x, y)` draw positions of the tiled mode of v1.5.0
(lines 101-119), rows enumerated with their stagger index. -/
def tilePositions (w h stepx stepy : ℤ) : List (ℤ × ℤ) :=
  (tileRowsY h stepy).enum.flatMap fun ry =>
    (tileRowXs w stepx ry.1).map fun x => (x, ry.2)

/-- `apply_watermark` of v1.5.0 (lines 77-129).  Library failures are
oracle flags: `fontLoadFails` for `ImageFont.truetype` raising (caught by
the `try` at lines 85-88, degrading to the default font) and `drawFails`
for any failure of the uncaught drawing/compositing calls (lines 90-128:
`convert`, `textbbox`, `draw.text`, `rotate`, `alpha_composite`), which
propagates to the caller.  `bboxW`/`bboxH` are the text-measurement oracle
(the raw `textbbox` dimensions fed to `text_size`). -/
def apply_watermark_v150 (img : Image) (wm : WatermarkSpec) (tiled rotate : Bool)
    (fsExists : String → Bool) (fontLoadFails drawFails : Bool)
    (bboxW bboxH : ℤ) : Except String Image :=
  if wm.text = "" then
    .ok img
  else
    let fpx := font_px_v150 img.width wm.size_pct
    let font := resolveFont fsExists fontLoadFails fpx
    if drawFails then
      .error "draw raised"
    else
      let tw := (text_size bboxW bboxH).1
      let th := (text_size bboxW bboxH).2
      let padpx := pad_px_v150 fpx wm.tile_padding_pct
      let sx := stepOf tw padpx
      let sy := stepOf th padpx
      let fill : Fill := ⟨180, 180, 180, clampOpacity wm.opacity⟩
      let pos : List (ℚ × ℚ) :=
        if tiled then
          (tilePositions (img.width : ℤ) (img.height : ℤ) sx sy).map
            fun p => ((p.1 : ℚ), (p.2 : ℚ))
        else
          [(((img.width : ℚ) - (tw : ℚ)) / 2, ((img.height : ℚ) - (th : ℚ)) / 2)]
      .ok ⟨img.width, img.height,
           .composited img.px ⟨pos, wm.text, font, fill, rotate⟩⟩

/-- v1.0.0 line 77: `font_size = max(8, int(img.width * max(0.01, wm.size_pct) / 100))`. -/
def font_px_v100 (w : ℕ) (size_pct : ℚ) : ℤ :=
  max 8 (pytrunc ((w : ℚ) * max (1/100) size_pct / 100))

/-- v1.0.0 line 87: `step = max(10, int(wm.tile_px))`. -/
def step_v100 (tile_px : ℤ) : ℤ :=
  max 10 tile_px

/-- The `(x, y)` draw positions of v1.0.0 lines 90-92:
`for y in range(0, img.height + step, step): for x in range(0, img.width + step, step)`. -/
def tilePositions_v100 (w h step : ℤ) : List (ℤ × ℤ) :=
  (drawRange (h + step) step 0).flatMap fun y =>
    (drawRange (w + step) step 0).map fun x => (x, y)

/-- `apply_watermark` of v1.0.0 (lines 72-98).  The whole body sits inside
`try: ... except Exception: return img` — any internal failure (modelled by
`drawFails`) yields the original image; a font-load failure alone is caught
by the inner `try` and degrades to the default font. -/
def apply_watermark_v100 (img : Image) (wm : WatermarkSpecV100)
    (fsExists : String → Bool) (fontLoadFails drawFails : Bool) : Image :=
  if wm.text = "" then
    img
  else if drawFails then
    img
  else
    let fpx := font_px_v100 img.width wm.size_pct
    let font := resolveFont fsExists fontLoadFails fpx
    let fill : Fill := ⟨180, 180, 180, clampOpacity wm.opacity⟩
    let step := step_v100 wm.tile_px
    let pos := (tilePositions_v100 (img.width : ℤ) (img.height : ℤ) step).map
      fun p => ((p.1 : ℚ), (p.2 : ℚ))
    ⟨img.width, img.height, .composited img.px ⟨pos, wm.text, font, fill, false⟩⟩

/-- An encoded image byte stream: the chosen codec together with the exact
inputs that determine the bytes. -/
inductive Encoded where
  | jpeg (img : Image) (quality : ℤ)
  | png (img : Image)
deriving DecidableEq, Repr

/-- `encode_image` (v1.5.0 lines 131-137): JPEG with quality clamped to
`[1, 100]` when `fmt.lower() == "jpeg"`, else PNG (quality ignored). -/
def encode_image (img : Image) (fmt : String) (quality : ℤ) : Encoded :=
  if fmt.toLower = "jpeg" then .jpeg img (max 1 (min 100 quality)) else .png img

/-- One page of an assembled output document: `pdf.new_page(width=img.width,
height=img.height)` with the full-page image stream inserted
(v1.5.0 lines 143-145). -/
structure Page where
  width : ℕ
  height : ℕ
  stream : Encoded
deriving DecidableEq, Repr

/-- `save_pdf` (v1.5.0 lines 139-147): one output page per input raster,
sized to that raster's pixel dimensions, carrying its JPEG stream, in input
order. -/
def save_pdf (images : List Image) (quality : ℤ) : List Page :=
  images.map fun img => ⟨img.width, img.height, encode_image img "jpeg" quality⟩

/-- Python `f"{n:03d}"`: zero-pad to (at least) three digits. -/
def pad3 (n : ℕ) : String :=
  if n < 10 then "00" ++ toString n
  else if n < 100 then "0" ++ toString n
  else toString n

/-- An output artifact written by `process_pdf`: an assembled document or a
single encoded page image. -/
inductive OutFile where
  | doc (pages : List Page)
  | img (e : Encoded)
deriving DecidableEq, Repr

/-- The per-page loop of `process_pdf` v1.5.0 (lines 152-164): render the
page (the list entries are the rasterizer's per-page results, `.error` for
an unreadable page), watermark it, then call `on_progress(i + 1, total)`
with NO try/except around it — a raising callback propagates, as does any
render or watermark failure. -/
def processPages_v150 (wm : WatermarkSpec) (tiled rotate : Bool)
    (fsExists : String → Bool) (fontLoadFails drawFails : Bool) (bboxW bboxH : ℤ)
    (cb : ℕ → ℕ → Except String Unit) (total : ℕ) :
    ℕ → List (Except String Image) → Except String (List Image)
  | _, [] => .ok []
  | i, p :: rest =>
    match p with
    | .error e => .error e
    | .ok raw =>
      match apply_watermark_v150 raw wm tiled rotate fsExists fontLoadFails drawFails
          bboxW bboxH with
      | .error e => .error e
      | .ok img =>
        match cb (i + 1) total with
        | .error e => .error e
        | .ok _ =>
          match processPages_v150 wm tiled rotate fsExists fontLoadFails drawFails
              bboxW bboxH cb total (i + 1) rest with
          | .error e => .error e
          | .ok imgs => .ok (img :: imgs)

/-- The per-page loop of `process_pdf` v1.0.0 (lines 128-136): the watermark
call never raises, and `on_progress` is wrapped in `try: ... except
Exception: pass` — its outcome is discarded. -/
def processPages_v100 (wm : WatermarkSpecV100) (fsExists : String → Bool)
    (fontLoadFails drawFails : Bool) (cb : ℕ → ℕ → Except String Unit) (total : ℕ) :
    ℕ → List (Except String Image) → Except String (List Image)
  | _, [] => .ok []
  | i, p :: rest =>
    match p with
    | .error e => .error e
    | .ok raw =>
      let img := apply_watermark_v100 raw wm fsExists fontLoadFails drawFails
      let _swallowed : Unit :=
        match cb (i + 1) total with
        | .ok u => u
        | .error _ => ()
      match processPages_v100 wm fsExists fontLoadFails drawFails cb total (i + 1) rest with
      | .error e => .error e
      | .ok imgs => .ok (img :: imgs)

/-- `process_pdf` of v1.5.0 (lines 149-182): open the document (`doc` is the
`fitz.open` result oracle), run the per-page loop, then either assemble one
`{stem}_flattened.pdf` (when `export_format == "pdf"`) or write one
`{stem}_{idx:03d}.{export_format}` per raster with `enumerate(images,
start=1)` numbering.  Returns the ordered `(path, contents)` outputs. -/
def process_pdf_v150 (stem : String) (doc : Except String (List (Except String Image)))
    (opts : FlattenOptions) (fsExists : String → Bool)
    (fontLoadFails drawFails : Bool) (bboxW bboxH : ℤ)
    (cb : ℕ → ℕ → Except String Unit) : Except String (List (String × OutFile)) :=
  match doc with
  | .error e => .error e
  | .ok pages =>
    match processPages_v150 opts.watermark opts.tiled opts.rotate_45 fsExists
        fontLoadFails drawFails bboxW bboxH cb pages.length 0 pages with
    | .error e => .error e
    | .ok images =>
      if opts.export_format = "pdf" then
        .ok [(stem ++ "_flattened.pdf", .doc (save_pdf images opts.jpeg_quality))]
      else
        .ok ((images.enumFrom 1).map fun ie =>
          (stem ++ "_" ++ pad3 ie.1 ++ "." ++ opts.export_format,
           .img (encode_image ie.2 opts.export_format opts.jpeg_quality)))

/-- The worker's per-page progress callback (v1.5.0 line 379) only moves a
progress bar; it is modelled as always succeeding. -/
def workerCb : ℕ → ℕ → Except String Unit := fun _ _ => .ok ()

/-- One queued input file: its stem and its open-and-rasterize oracle. -/
structure InputFile where
  stem : String
  doc : Except String (List (Except String Image))

/-- `PDFToolApp._worker` of v1.5.0 (lines 360-382): process the queued files
in order.  `process_pdf` is called with no try/except, so its exception
propagates and ends the worker thread: the result is the ordered outputs of
the files completed before the first failure, paired with whether the loop
aborted. -/
def worker_v150 (opts : FlattenOptions) (fsExists : String → Bool)
    (fontLoadFails drawFails : Bool) (bboxW bboxH : ℤ) :
    List InputFile → List (List (String × OutFile)) × Bool
  | [] => ([], false)
  | f :: rest =>
    match process_pdf_v150 f.stem f.doc opts fsExists fontLoadFails drawFails
        bboxW bboxH workerCb with
    | .ok outs =>
      let r := worker_v150 opts fsExists fontLoadFails drawFails bboxW bboxH rest
      (outs :: r.1, r.2)
    | .error _ => ([], true)

/-- The preview cache key of `_update_preview_image` (v1.5.0 lines 406-415):
the full parameter tuple. -/
structure CacheKey where
  page_index : ℕ
  text : String
  size_pct : ℚ
  opacity : ℤ
  tile_padding_pct : ℚ
  tiled : Bool
  rotate_45 : Bool
  dpi : ℤ
deriving DecidableEq, Repr

/-- The preview controller's mutable state: the key → artifact-path mapping
`_preview_cache`, the set of temp files existing on disk, and a counter of
render operations performed (each cache miss renders exactly once). -/
structure PreviewState where
  cache : List (CacheKey × String)
  files : List String
  renders : ℕ

/-- Lookup in the key → path mapping (`self._preview_cache.get(cache_key)`,
v1.5.0 line 416); newest binding wins, matching dict assignment. -/
def cacheLookup (cache : List (CacheKey × String)) (k : CacheKey) : Option String :=
  (cache.find? fun e => decide (e.1 = k)).map Prod.snd

/-- `_update_preview_image` (v1.5.0 lines 400-448): on a cache hit (a truthy
cached path that still exists on disk, line 417) return the stored path
with no rendering; on a miss render once, save to a fresh temp file
(`newPath`, the `tempfile.NamedTemporaryFile` oracle), store it in the
cache and return it. -/
def updatePreview (k : CacheKey) (newPath : String) (s : PreviewState) :
    PreviewState × String :=
  match cacheLookup s.cache k with
  | some p =>
    if p ≠ "" ∧ p ∈ s.files then
      (s, p)
    else
      (⟨(k, newPath) :: s.cache, newPath :: s.files, s.renders + 1⟩, newPath)
  | none => (⟨(k, newPath) :: s.cache, newPath :: s.files, s.renders + 1⟩, newPath)

/-- `render_page` (v1.5.0 lines 58-63), line 60: the scale factor
`zoom = max(1/4, dpi / 72)` applied on both axes. -/
def zoom (dpi : ℤ) : ℚ :=
  max (1/4) ((dpi : ℚ) / 72)

/-! Concrete inputs used by counterexamples and witnesses. -/

/-- A tiny 2×3 raster page. -/
def img0 : Image := ⟨2, 3, .source 0⟩

/-- A 4×5 raster page. -/
def imgA : Image := ⟨4, 5, .source 1⟩

/-- A 6×7 raster page. -/
def imgB : Image := ⟨6, 7, .source 2⟩

/-- The UI's default v1.5.0 watermark parameters (text `CONFIDENTIAL`,
size 10 %, opacity 120, tile padding 50 %). -/
def wmC : WatermarkSpec := ⟨"CONFIDENTIAL", 10, 120, 50⟩

/-- The corresponding v1.0.0 watermark parameters (UI defaults: size 6 %,
tile spacing 200 px, opacity 120). -/
def wmC100 : WatermarkSpecV100 := ⟨"CONFIDENTIAL", 6, 200, 120⟩

/-- A watermark spec with empty text. -/
def wmE : WatermarkSpec := ⟨"", 10, 120, 50⟩

/-- A v1.0.0 watermark spec with empty text. -/
def wmE100 : WatermarkSpecV100 := ⟨"", 6, 200, 120⟩

/-- Filesystem oracle on which no font probe path exists. -/
def fs0 : String → Bool := fun _ => false

/-- Flatten options: dpi 150, JPEG quality 85, export to pdf, default
watermark, single (non-tiled) mode, no rotation. -/
def opts0 : FlattenOptions := ⟨150, 85, "pdf", wmC, false, false⟩

/-- A queued file whose document opens with one readable 2×3 page. -/
def goodFile : InputFile := ⟨"good", .ok [.ok img0]⟩

/-- A queued file whose document fails to open. -/
def badFile : InputFile := ⟨"bad", .error "open failed"⟩

/-- A progress callback that raises on the first page and succeeds after. -/
def cbBoom : ℕ → ℕ → Except String Unit :=
  fun done _ => if done = 1 then .error "boom" else .ok ()

/-- Flatten options exporting per-page PNG files. -/
def optsPng : FlattenOptions := ⟨150, 85, "png", wmC, false, false⟩

/-! Shared lemmas about the while-loop position generator. -/

theorem drawRange_pos (stop step start : ℤ) (h1 : start < stop) (h2 : 0 < step) :
    drawRange stop step start = start :: drawRange stop step (start + step) := by
  rw [drawRange]
  simp [h1, h2]

theorem drawRange_nil (stop step start : ℤ) (h : ¬(start < stop ∧ 0 < step)) :
    drawRange stop step start = [] := by
  rw [drawRange]
  simp [h]

/-- Loop-position characterisation: the loop visits exactly the arithmetic
progression from `start` with common difference `step`, up to (excluding)
`stop`. -/
theorem mem_drawRange (stop step : ℤ) : ∀ (start z : ℤ),
    z ∈ drawRange stop step start ↔ 0 < step ∧ start ≤ z ∧ z < stop ∧ step ∣ (z - start) := by
  intro start
  induction start using drawRange.induct stop step with
  | case1 start h ih =>
    intro z
    rw [drawRange_pos _ _ _ h.1 h.2]
    simp only [List.mem_cons, ih]
    constructor
    · rintro (rfl | ⟨hs, h1, h2, k, hk⟩)
      · exact ⟨h.2, le_refl _, h.1, ⟨0, by ring⟩⟩
      · refine ⟨hs, by omega, h2, ⟨k + 1, ?_⟩⟩
        have hub : step * (k + 1) = step * k + step := by ring
        linarith
    · rintro ⟨hs, h1, h2, k, hk⟩
      rcases eq_or_lt_of_le h1 with rfl | hlt
      · left; rfl
      · right
        have hk1 : 1 ≤ k := by nlinarith
        refine ⟨hs, ?_, h2, ⟨k - 1, ?_⟩⟩
        · nlinarith
        · have hub : step * (k - 1) = step * k - step := by ring
          linarith
  | case2 start h =>
    intro z
    rw [drawRange_nil _ _ _ h]
    simp only [List.not_mem_nil, false_iff]
    rintro ⟨hs, h1, h2, _⟩
    exact h ⟨by omega, hs⟩

/-- Every target point between `start` (inclusive) and `stop` (exclusive) has
a loop position at most one `step` below it. -/
theorem drawRange_covers (stop step : ℤ) (hstep : 0 < step) :
    ∀ start t : ℤ, start ≤ t → t < stop →
      ∃ z ∈ drawRange stop step start, z ≤ t ∧ t < z + step := by
  have main : ∀ n : ℕ, ∀ start t : ℤ, (t - start).toNat = n → start ≤ t → t < stop →
      ∃ z ∈ drawRange stop step start, z ≤ t ∧ t < z + step := by
    intro n
    induction n using Nat.strong_induction_on with
    | _ n ih =>
      intro start t hn h1 h2
      rw [drawRange_pos _ _ _ (lt_of_le_of_lt h1 h2) hstep]
      by_cases hc : t < start + step
      · exact ⟨start, List.mem_cons_self _ _, h1, hc⟩
      · push_neg at hc
        obtain ⟨z, hz, hz1, hz2⟩ :=
          ih ((t - (start + step)).toNat) (by omega) (start + step) t rfl hc h2
        exact ⟨z, List.mem_cons_of_mem _ hz, hz1, hz2⟩
  intro start t
  exact main ((t - start).toNat) start t rfl

theorem drawRange_head (stop step start : ℤ) (h1 : start < stop) (h2 : 0 < step) :
    (drawRange stop step start).head? = some start := by
  rw [drawRange_pos _ _ _ h1 h2]
  rfl

/-- A nonempty loop run reaches within one `step` of `stop`. -/
theorem drawRange_last_ge (stop step start : ℤ) (h1 : start < stop) (h2 : 0 < step) :
    ∃ z ∈ drawRange stop step start, stop - step ≤ z := by
  obtain ⟨z, hz, hz1, hz2⟩ := drawRange_covers stop step h2 start (stop - 1) (by omega) (by omega)
  exact ⟨z, hz, by omega⟩

/-- Geometry of the vertical tiling axis: first row at `-step_y`, a row at or
past the bottom edge, rows exactly one step apart (arithmetic progression),
and every canvas point within one step of a row. -/
theorem tileRowsY_props (h sy : ℤ) (h0 : 0 ≤ h) (hs : 1 ≤ sy) :
    ((tileRowsY h sy).head? = some (-sy)) ∧
    (∃ y ∈ tileRowsY h sy, h ≤ y) ∧
    (∀ y : ℤ, y ∈ tileRowsY h sy ↔ (-sy ≤ y ∧ y < h + sy ∧ sy ∣ (y + sy))) ∧
    (∀ t : ℤ, 0 ≤ t → t ≤ h → ∃ y ∈ tileRowsY h sy, y ≤ t ∧ t < y + sy) := by
  have hlt : -sy < h + sy := by omega
  refine ⟨drawRange_head _ _ _ hlt (by omega), ?_, ?_, ?_⟩
  · obtain ⟨z, hz, hz1⟩ := drawRange_last_ge (h + sy) sy (-sy) hlt (by omega)
    exact ⟨z, hz, by omega⟩
  · intro y
    rw [tileRowsY, mem_drawRange]
    have hy : y - -sy = y + sy := by ring
    rw [hy]
    omega
  · intro t ht0 ht1
    exact drawRange_covers (h + sy) sy (by omega) (-sy) t (by omega) (by omega)

/-- Geometry of one horizontal tiling row: first position at
`-step_x - offset` (at least one step before the origin, staggered rows
further left), a position at or past the right edge, positions exactly one
step apart, and every canvas point within one step of a position. -/
theorem tileRowXs_props (w sx : ℤ) (r : ℕ) (h0 : 0 ≤ w) (hs : 1 ≤ sx) :
    ((tileRowXs w sx r).head? = some (-sx - offsetForRow sx r) ∧
      -sx - offsetForRow sx r ≤ -sx) ∧
    (∃ x ∈ tileRowXs w sx r, w ≤ x) ∧
    (∀ x : ℤ, x ∈ tileRowXs w sx r ↔
      (-sx - offsetForRow sx r ≤ x ∧ x < w + sx ∧ sx ∣ (x + sx + offsetForRow sx r))) ∧
    (∀ t : ℤ, 0 ≤ t → t ≤ w → ∃ x ∈ tileRowXs w sx r, x ≤ t ∧ t < x + sx) := by
  have hoff : 0 ≤ offsetForRow sx r := by
    rw [offsetForRow]
    split
    · omega
    · omega
  have hlt : -sx - offsetForRow sx r < w + sx := by omega
  refine ⟨⟨drawRange_head _ _ _ hlt (by omega), by omega⟩, ?_, ?_, ?_⟩
  · obtain ⟨z, hz, hz1⟩ := drawRange_last_ge (w + sx) sx (-sx - offsetForRow sx r) hlt (by omega)
    exact ⟨z, hz, by omega⟩
  · intro x
    rw [tileRowXs, mem_drawRange]
    have hx : x - (-sx - offsetForRow sx r) = x + sx + offsetForRow sx r := by ring
    rw [hx]
    omega
  · intro t ht0 ht1
    exact drawRange_covers (w + sx) sx (by omega) (-sx - offsetForRow sx r) t (by omega) (by omega)

/-- Claim C4: in tiled mode with non-empty watermark text, the grid of text
draw positions generated by `apply_watermark` (the overlay built from
`tilePositions`, first conjunct) starts at least one full step before the
canvas origin on both axes, reaches at least the canvas bound on both axes
(so the last tile cell extends at least one full step past it), has
consecutive positions exactly one step apart (each axis is the arithmetic
progression with difference `step_x`/`step_y`), and leaves no point of the
visible canvas farther than one step from a drawn position on either axis. -/
theorem c4_tiled_grid_overshoot_and_coverage (img : Image) (wm : WatermarkSpec)
    (rotate : Bool) (fsExists : String → Bool) (fontLoadFails : Bool)
    (bboxW bboxH sx sy : ℤ)
    (htext : ¬ wm.text = "")
    (hsx : sx = stepOf (text_size bboxW bboxH).1
      (pad_px_v150 (font_px_v150 img.width wm.size_pct) wm.tile_padding_pct))
    (hsy : sy = stepOf (text_size bboxW bboxH).2
      (pad_px_v150 (font_px_v150 img.width wm.size_pct) wm.tile_padding_pct)) :
    (apply_watermark_v150 img wm true rotate fsExists fontLoadFails false bboxW bboxH =
      .ok ⟨img.width, img.height, .composited img.px
        ⟨(tilePositions (img.width : ℤ) (img.height : ℤ) sx sy).map
            (fun p => ((p.1 : ℚ), (p.2 : ℚ))),
         wm.text,
         resolveFont fsExists fontLoadFails (font_px_v150 img.width wm.size_pct),
         ⟨180, 180, 180, clampOpacity wm.opacity⟩, rotate⟩⟩) ∧
    ((tileRowsY (img.height : ℤ) sy).head? = some (-sy)) ∧
    (∃ y ∈ tileRowsY (img.height : ℤ) sy, (img.height : ℤ) ≤ y) ∧
    (∀ y : ℤ, y ∈ tileRowsY (img.height : ℤ) sy ↔
      (-sy ≤ y ∧ y < (img.height : ℤ) + sy ∧ sy ∣ (y + sy))) ∧
    (∀ t : ℤ, 0 ≤ t → t ≤ (img.height : ℤ) →
      ∃ y ∈ tileRowsY (img.height : ℤ) sy, y ≤ t ∧ t < y + sy) ∧
    (∀ r : ℕ,
      ((tileRowXs (img.width : ℤ) sx r).head? = some (-sx - offsetForRow sx r) ∧
        -sx - offsetForRow sx r ≤ -sx) ∧
      (∃ x ∈ tileRowXs (img.width : ℤ) sx r, (img.width : ℤ) ≤ x) ∧
      (∀ x : ℤ, x ∈ tileRowXs (img.width : ℤ) sx r ↔
        (-sx - offsetForRow sx r ≤ x ∧ x < (img.width : ℤ) + sx ∧
          sx ∣ (x + sx + offsetForRow sx r))) ∧
      (∀ t : ℤ, 0 ≤ t → t ≤ (img.width : ℤ) →
        ∃ x ∈ tileRowXs (img.width : ℤ) sx r, x ≤ t ∧ t < x + sx)) := by
  have hsx1 : 1 ≤ sx := by
    rw [hsx, stepOf]
    exact le_max_left _ _
  have hsy1 : 1 ≤ sy := by
    rw [hsy, stepOf]
    exact le_max_left _ _
  obtain ⟨hy1, hy2, hy3, hy4⟩ :=
    tileRowsY_props (img.height : ℤ) sy (Int.ofNat_nonneg _) hsy1
  refine ⟨?_, hy1, hy2, hy3, hy4, fun r => ?_⟩
  · subst hsx hsy
    simp [apply_watermark_v150, htext]
  · exact tileRowXs_props (img.width : ℤ) sx r (Int.ofNat_nonneg _) hsx1

/-- Claim C4 witness: the guarantees instantiated at a concrete 2×3 page,
the default watermark parameters and a 100×20 measured text box. -/
theorem c4_witness :
    ¬ wmC.text = "" ∧
    (apply_watermark_v150 img0 wmC true false fs0 false false 100 20 =
      .ok ⟨img0.width, img0.height, .composited img0.px
        ⟨(tilePositions (img0.width : ℤ) (img0.height : ℤ)
              (stepOf (text_size 100 20).1
                (pad_px_v150 (font_px_v150 img0.width wmC.size_pct) wmC.tile_padding_pct))
              (stepOf (text_size 100 20).2
                (pad_px_v150 (font_px_v150 img0.width wmC.size_pct) wmC.tile_padding_pct))).map
            (fun p => ((p.1 : ℚ), (p.2 : ℚ))),
         wmC.text,
         resolveFont fs0 false (font_px_v150 img0.width wmC.size_pct),
         ⟨180, 180, 180, clampOpacity wmC.opacity⟩, false⟩⟩) := by
  have htext : ¬ wmC.text = "" := by simp [wmC]
  exact ⟨htext,
    (c4_tiled_grid_overshoot_and_coverage img0 wmC false fs0 false 100 20 _ _
      htext rfl rfl).1⟩

/-- Claim C9: with empty watermark text, `apply_watermark` returns the base
raster unchanged for every base raster and every tiled/rotate flag
combination (and regardless of any library-failure oracle), so the page
pipeline's output rasters are exactly the un-watermarked rasterization. -/
theorem c9_empty_text_noop (wm : WatermarkSpec) (tiled rotate : Bool)
    (fsExists : String → Bool) (fontLoadFails drawFails : Bool) (bboxW bboxH : ℤ)
    (h : wm.text = "") :
    (∀ img : Image,
      apply_watermark_v150 img wm tiled rotate fsExists fontLoadFails drawFails
        bboxW bboxH = .ok img) ∧
    (∀ (pages : List Image) (total i : ℕ),
      processPages_v150 wm tiled rotate fsExists fontLoadFails drawFails bboxW bboxH
        workerCb total i (pages.map Except.ok) = .ok pages) := by
  have haw : ∀ img : Image,
      apply_watermark_v150 img wm tiled rotate fsExists fontLoadFails drawFails
        bboxW bboxH = .ok img := by
    intro img
    simp [apply_watermark_v150, h]
  refine ⟨haw, ?_⟩
  intro pages
  induction pages with
  | nil =>
    intro total i
    simp [processPages_v150]
  | cons p rest ih =>
    intro total i
    simp only [List.map_cons, processPages_v150, haw, workerCb, ih]

/-- Claim C9 witness: the no-op guarantee instantiated at the empty-text
spec, tiled and rotated flags set, and a concrete failure oracle. -/
theorem c9_witness :
    wmE.text = "" ∧
    apply_watermark_v150 imgA wmE true true fs0 true true 100 20 = .ok imgA ∧
    processPages_v150 wmE true true fs0 true true 100 20 workerCb 2 0
      ([imgA, imgB].map Except.ok) = .ok [imgA, imgB] := by
  have h := c9_empty_text_noop wmE true true fs0 true true 100 20 rfl
  exact ⟨rfl, h.1 imgA, h.2 [imgA, imgB] 2 0⟩

/-- Claim C10: the rasterizer's effective scale factor is
`max(0.25, dpi/72)`; for every `dpi < 18` it is exactly `0.25`, and it is
strictly positive for every integer `dpi`. -/
theorem c10_zoom_clamped (dpi : ℤ) :
    zoom dpi = max (1/4 : ℚ) ((dpi : ℚ) / 72) ∧
    (dpi < 18 → zoom dpi = 1/4) ∧
    0 < zoom dpi := by
  refine ⟨rfl, ?_, ?_⟩
  · intro h
    have hq : (dpi : ℚ) < 18 := by exact_mod_cast h
    rw [zoom, max_eq_left]
    rw [div_le_iff₀ (by norm_num : (0 : ℚ) < 72)]
    linarith
  · exact lt_of_lt_of_le (by norm_num) (le_max_left _ _)

/-- Claim C10 witness: at `dpi = 10` (below the threshold 18) the scale is
exactly `1/4` and positive. -/
theorem c10_witness :
    (10 : ℤ) < 18 ∧ zoom 10 = 1/4 ∧ 0 < zoom 10 :=
  ⟨by norm_num, (c10_zoom_clamped 10).2.1 (by norm_num), (c10_zoom_clamped 10).2.2⟩

/-- Claim C5: `save_pdf` over N rasters produces exactly N pages, page `i`
has exactly raster `i`'s pixel width and height (no rescaling), and carries
raster `i`'s JPEG stream — input order is preserved index by index. -/
theorem c5_save_pdf_shape (images : List Image) (q : ℤ) :
    (save_pdf images q).length = images.length ∧
    (∀ i : ℕ, ∀ hi : i < images.length, ∀ hi2 : i < (save_pdf images q).length,
      ((save_pdf images q).get ⟨i, hi2⟩).width = (images.get ⟨i, hi⟩).width ∧
      ((save_pdf images q).get ⟨i, hi2⟩).height = (images.get ⟨i, hi⟩).height ∧
      ((save_pdf images q).get ⟨i, hi2⟩).stream =
        encode_image (images.get ⟨i, hi⟩) "jpeg" q) := by
  refine ⟨by simp [save_pdf], ?_⟩
  intro i hi hi2
  simp [save_pdf, List.get_eq_getElem, List.getElem_map]

/-- Claim C5 witness: a two-raster document keeps count, per-index pixel
dimensions and stream. -/
theorem c5_witness :
    (save_pdf [imgA, imgB] 85).length = [imgA, imgB].length ∧
    ((save_pdf [imgA, imgB] 85).get ⟨0, by simp [save_pdf]⟩).width =
      ([imgA, imgB].get ⟨0, by simp⟩).width ∧
    ((save_pdf [imgA, imgB] 85).get ⟨1, by simp [save_pdf]⟩).stream =
      encode_image ([imgA, imgB].get ⟨1, by simp⟩) "jpeg" 85 := by
  have h := c5_save_pdf_shape [imgA, imgB] 85
  exact ⟨h.1, (h.2 0 (by simp) (by simp [save_pdf])).1,
    (h.2 1 (by simp) (by simp [save_pdf])).2.2⟩

/-- Lookup hits the newest binding for its own key. -/
theorem cacheLookup_cons_self (cache : List (CacheKey × String)) (k : CacheKey)
    (v : String) : cacheLookup ((k, v) :: cache) k = some v := by
  simp [cacheLookup]

/-- Claim C7: the preview controller is idempotent over the parameter tuple:
calling it twice in succession with the same cache key returns the same
artifact path both times, and the second call performs no rendering (the
render counter does not change — it is a cache hit). -/
theorem c7_preview_idempotent (k : CacheKey) (s0 : PreviewState) (p1 p2 : String)
    (h1 : p1 ≠ "") :
    (updatePreview k p2 (updatePreview k p1 s0).1).2 = (updatePreview k p1 s0).2 ∧
    (updatePreview k p2 (updatePreview k p1 s0).1).1.renders =
      (updatePreview k p1 s0).1.renders := by
  cases hc : cacheLookup s0.cache k with
  | none =>
    have e1 : updatePreview k p1 s0 =
        (⟨(k, p1) :: s0.cache, p1 :: s0.files, s0.renders + 1⟩, p1) := by
      rw [updatePreview, hc]
    rw [e1, updatePreview, cacheLookup_cons_self]
    simp [h1]
  | some p =>
    by_cases hp : p ≠ "" ∧ p ∈ s0.files
    · have e1 : updatePreview k p1 s0 = (s0, p) := by
        rw [updatePreview, hc]
        simp [hp.1, hp.2]
      rw [e1, updatePreview, hc]
      simp [hp.1, hp.2]
    · have e1 : updatePreview k p1 s0 =
          (⟨(k, p1) :: s0.cache, p1 :: s0.files, s0.renders + 1⟩, p1) := by
        rw [updatePreview, hc]
        simp only [if_neg hp]
      rw [e1, updatePreview, cacheLookup_cons_self]
      simp [h1]

/-- Claim C7 witness: starting from an empty cache, two successive calls with
an identical concrete key return the same path with no second render. -/
theorem c7_witness :
    ("/tmp/a.jpg" : String) ≠ "" ∧
    (updatePreview ⟨0, "CONFIDENTIAL", 10, 120, 50, true, false, 150⟩ "/tmp/b.jpg"
        (updatePreview ⟨0, "CONFIDENTIAL", 10, 120, 50, true, false, 150⟩ "/tmp/a.jpg"
          ⟨[], [], 0⟩).1).2 =
      (updatePreview ⟨0, "CONFIDENTIAL", 10, 120, 50, true, false, 150⟩ "/tmp/a.jpg"
        ⟨[], [], 0⟩).2 ∧
    (updatePreview ⟨0, "CONFIDENTIAL", 10, 120, 50, true, false, 150⟩ "/tmp/b.jpg"
        (updatePreview ⟨0, "CONFIDENTIAL", 10, 120, 50, true, false, 150⟩ "/tmp/a.jpg"
          ⟨[], [], 0⟩).1).1.renders =
      (updatePreview ⟨0, "CONFIDENTIAL", 10, 120, 50, true, false, 150⟩ "/tmp/a.jpg"
        ⟨[], [], 0⟩).1.renders := by
  have h1 : ("/tmp/a.jpg" : String) ≠ "" := by simp
  exact ⟨h1, (c7_preview_idempotent _ ⟨[], [], 0⟩ "/tmp/a.jpg" "/tmp/b.jpg" h1).1,
    (c7_preview_idempotent _ ⟨[], [], 0⟩ "/tmp/a.jpg" "/tmp/b.jpg" h1).2⟩

/-- With the draw oracle succeeding, the v1.5.0 watermark call always
returns a composited (or untouched) raster. -/
theorem apply_watermark_v150_isOk (img : Image) (wm : WatermarkSpec)
    (tiled rotate : Bool) (fsExists : String → Bool) (fontLoadFails : Bool)
    (bboxW bboxH : ℤ) :
    (apply_watermark_v150 img wm tiled rotate fsExists fontLoadFails false
      bboxW bboxH).isOk = true := by
  by_cases ht : wm.text = "" <;>
    simp [apply_watermark_v150, ht, Except.isOk, Except.toBool]

/-- With readable pages, a succeeding draw oracle and the worker's progress
callback, the per-page loop of v1.5.0 succeeds and yields one output raster
per page. -/
theorem processPages_v150_ok (wm : WatermarkSpec) (tiled rotate : Bool)
    (fsExists : String → Bool) (fontLoadFails : Bool) (bboxW bboxH : ℤ) (total : ℕ) :
    ∀ (pages : List Image) (i : ℕ),
      ∃ imgs : List Image,
        processPages_v150 wm tiled rotate fsExists fontLoadFails false bboxW bboxH
          workerCb total i (pages.map Except.ok) = .ok imgs ∧
        imgs.length = pages.length := by
  intro pages
  induction pages with
  | nil =>
    intro i
    exact ⟨[], by simp [processPages_v150], rfl⟩
  | cons p rest ih =>
    intro i
    obtain ⟨imgs, hrun, hlen⟩ := ih (i + 1)
    cases haw : apply_watermark_v150 p wm tiled rotate fsExists fontLoadFails false
        bboxW bboxH with
    | error e =>
      have hok := apply_watermark_v150_isOk p wm tiled rotate fsExists fontLoadFails
        bboxW bboxH
      rw [haw] at hok
      simp [Except.isOk, Except.toBool] at hok
    | ok w =>
      refine ⟨w :: imgs, ?_, by simp [hlen]⟩
      simp only [List.map_cons, processPages_v150, haw, workerCb, hrun]

/-- Projecting the output file name over `enumerate(images, start=n)` is the
same as mapping the naming scheme over `[n, n+1, ..., n+len-1]`. -/
theorem enumFrom_map_name (stem fmt : String) :
    ∀ (l : List Image) (n : ℕ),
      (l.enumFrom n).map (fun ie => stem ++ "_" ++ pad3 ie.1 ++ "." ++ fmt) =
        (List.range' n l.length).map (fun i => stem ++ "_" ++ pad3 i ++ "." ++ fmt) := by
  intro l
  induction l with
  | nil =>
    intro n
    rfl
  | cons a t ih =>
    intro n
    simp only [List.enumFrom, List.length_cons, List.range'_succ, List.map_cons]
    rw [ih (n + 1)]

/-- Claim C6: for an input with `P` readable pages, `process_pdf` returns
exactly one output path `{stem}_flattened.pdf` when the export format is the
document format, and otherwise exactly `P` paths
`{stem}_{NNN}.{export_format}` with 1-based zero-padded 3-digit page
numbers in ascending page order. -/
theorem c6_output_naming (stem : String) (pages : List Image) (opts : FlattenOptions)
    (fsExists : String → Bool) (fontLoadFails : Bool) (bboxW bboxH : ℤ) :
    (opts.export_format = "pdf" →
      (process_pdf_v150 stem (.ok (pages.map Except.ok)) opts fsExists fontLoadFails
          false bboxW bboxH workerCb).map (List.map Prod.fst) =
        .ok [stem ++ "_flattened.pdf"]) ∧
    (opts.export_format ≠ "pdf" →
      (process_pdf_v150 stem (.ok (pages.map Except.ok)) opts fsExists fontLoadFails
          false bboxW bboxH workerCb).map (List.map Prod.fst) =
        .ok ((List.range' 1 pages.length).map fun i =>
          stem ++ "_" ++ pad3 i ++ "." ++ opts.export_format)) := by
  obtain ⟨imgs, hrun, hlen⟩ := processPages_v150_ok opts.watermark opts.tiled
    opts.rotate_45 fsExists fontLoadFails bboxW bboxH
    (pages.map Except.ok : List (Except String Image)).length pages 0
  simp only [List.length_map] at hrun
  constructor
  · intro hfmt
    simp only [process_pdf_v150, List.length_map, hrun, hfmt, if_true]
    simp [Except.map]
  · intro hfmt
    simp only [process_pdf_v150, List.length_map, hrun, if_neg hfmt]
    simp [Except.map, List.map_map, Function.comp]
    rw [show (Prod.fst ∘ fun ie : ℕ × Image =>
        (stem ++ "_" ++ pad3 ie.1 ++ "." ++ opts.export_format,
         OutFile.img (encode_image ie.2 opts.export_format opts.jpeg_quality))) =
      fun ie : ℕ × Image => stem ++ "_" ++ pad3 ie.1 ++ "." ++ opts.export_format
      from rfl]
    rw [enumFrom_map_name stem opts.export_format imgs 1, hlen]

/-- Claim C6 witness: with pdf export a one-page document yields exactly
`good_flattened.pdf`; with png export a two-page document yields exactly the
two 1-based zero-padded page names. -/
theorem c6_witness :
    opts0.export_format = "pdf" ∧
    (process_pdf_v150 "good" (.ok ([img0].map Except.ok)) opts0 fs0 false false
        100 20 workerCb).map (List.map Prod.fst) =
      .ok ["good" ++ "_flattened.pdf"] ∧
    optsPng.export_format ≠ "pdf" ∧
    (process_pdf_v150 "good" (.ok ([img0, imgA].map Except.ok)) optsPng fs0 false false
        100 20 workerCb).map (List.map Prod.fst) =
      .ok ((List.range' 1 [img0, imgA].length).map fun i =>
        "good" ++ "_" ++ pad3 i ++ "." ++ optsPng.export_format) := by
  have h1 : opts0.export_format = "pdf" := rfl
  have h2 : optsPng.export_format ≠ "pdf" := by simp [optsPng]
  exact ⟨h1, (c6_output_naming "good" [img0] opts0 fs0 false 100 20).1 h1,
    h2, (c6_output_naming "good" [img0, imgA] optsPng fs0 false 100 20).2 h2⟩

/-- Claim C8 counterexample: at page width 100 and `size_pct = 9.6` the code
computes `int(100 * 9.6 / 100) = int(9.6) = 9` (truncation), while the
claimed formula `max(4, round(100 * 9.6 / 100)) = round(9.6) = 10` — the
product is truncated, not rounded to the nearest integer. -/
theorem c8_counterexample_truncation :
    font_px_v150 100 (48/5) = 9 ∧ fontPxSpecRounded 100 (48/5) = 10 ∧
    font_px_v150 100 (48/5) ≠ fontPxSpecRounded 100 (48/5) := by
  have hq : ((100 : ℕ) : ℚ) * ((48/5 : ℚ) / 100) = 48/5 := by norm_num
  have h9 : font_px_v150 100 (48/5) = 9 := by
    rw [font_px_v150, hq, pytrunc, if_pos (by norm_num : (0 : ℚ) ≤ 48/5)]
    norm_num
  have h10 : fontPxSpecRounded 100 (48/5) = 10 := by
    rw [fontPxSpecRounded, hq, round_eq]
    norm_num
  refine ⟨h9, h10, ?_⟩
  rw [h9, h10]
  decide

/-- Claim C8 amended: the compositor computes
`font_px = max(4, int(base.width * spec.size_pct / 100))` with Python `int`
truncation toward zero (not rounding to nearest); the lower bound 4 still
applies after the conversion, the result never differs from the spec's
rounded formula by more than 1, and it depends only on the page width (DPI
is not an input of `font_px_v150` or `apply_watermark_v150`). -/
theorem c8_amended_font_px_truncates (w : ℕ) (pct : ℚ) :
    font_px_v150 w pct = max 4 (pytrunc ((w : ℚ) * (pct / 100))) ∧
    4 ≤ font_px_v150 w pct ∧
    (font_px_v150 w pct - fontPxSpecRounded w pct).natAbs ≤ 1 := by
  refine ⟨rfl, le_max_left _ _, ?_⟩
  have hfc : (⌈(w : ℚ) * (pct / 100)⌉ : ℤ) ≤ ⌊(w : ℚ) * (pct / 100)⌋ + 1 :=
    Int.ceil_le_floor_add_one _
  have hfl : (⌊(w : ℚ) * (pct / 100)⌋ : ℤ) ≤ ⌈(w : ℚ) * (pct / 100)⌉ :=
    Int.floor_le_ceil _
  have h1 : (⌊(w : ℚ) * (pct / 100)⌋ : ℤ) ≤ round ((w : ℚ) * (pct / 100)) := by
    rw [round_eq]
    exact Int.floor_le_floor (by linarith)
  have h2 : round ((w : ℚ) * (pct / 100)) ≤ ⌈(w : ℚ) * (pct / 100)⌉ := by
    rw [round_eq]
    have hle := Int.le_ceil ((w : ℚ) * (pct / 100))
    rw [Int.floor_le_iff]
    linarith
  rw [font_px_v150, fontPxSpecRounded, pytrunc]
  split
  · omega
  · omega

/-- Claim C1 (code defect in v1.5.0): only the font load sits inside a
try/except (lines 85-88); a failure of the uncaught drawing/compositing
calls propagates out of `apply_watermark` instead of being caught with the
base returned.  On the same failing input, v1.0.0's `apply_watermark`
(whose body is wrapped in `try: ... except Exception: return img`, with the
comment "Always return a valid image; never raise") returns the base
unmodified. -/
theorem c1_draw_error_propagates :
    apply_watermark_v150 img0 wmC true false fs0 false true 100 20 =
      .error "draw raised" ∧
    apply_watermark_v100 img0 wmC100 fs0 false true = img0 := by
  constructor
  · simp [apply_watermark_v150, wmC]
  · simp [apply_watermark_v100, wmC100]

/-- Claim C2 (code defect in v1.5.0): `process_pdf` invokes `on_progress`
with no try/except (line 164), so a callback that raises on the first page
aborts the whole page loop; v1.0.0 (lines 132-136) swallows the same
callback failure and processes all pages to completion. -/
theorem c2_callback_error_aborts :
    processPages_v150 wmE false false fs0 false false 100 20 cbBoom 3 0
      ([img0, imgA, imgB].map Except.ok) = .error "boom" ∧
    processPages_v100 wmE100 fs0 false false cbBoom 3 0
      ([img0, imgA, imgB].map Except.ok) = .ok [img0, imgA, imgB] := by
  constructor
  · simp [processPages_v150, apply_watermark_v150, wmE, cbBoom]
  · simp [processPages_v100, apply_watermark_v100, wmE100, cbBoom]

/-- Claim C3 counterexample: with the queue `[bad, good]` where `bad`'s
document fails to open, the worker aborts before reaching `good`, which
therefore produces no outputs — even though `good` alone does produce
outputs.  The failure of one file halts the processing of its sibling. -/
theorem c3_counterexample_sibling_not_processed :
    worker_v150 opts0 fs0 false false 100 20 [badFile, goodFile] = ([], true) ∧
    (worker_v150 opts0 fs0 false false 100 20 [goodFile]).1 ≠ [] := by
  constructor
  · simp [worker_v150, process_pdf_v150, badFile]
  · simp [worker_v150, process_pdf_v150, processPages_v150, apply_watermark_v150,
      goodFile, opts0, wmC, workerCb]

/-- Claim C3 amended: the files preceding the first failing file in the
queue are processed exactly as if the failing file and its successors were
absent (their outputs are already written), but the exception from the
failing file propagates out of `_worker`'s loop, so every sibling file
after it in the queue is not processed at all. -/
theorem c3_amended_first_failure_aborts_queue (opts : FlattenOptions)
    (fsExists : String → Bool) (fontLoadFails drawFails : Bool) (bboxW bboxH : ℤ)
    (pre : List InputFile) (bad : InputFile) (rest : List InputFile)
    (hpre : ∀ f ∈ pre, (process_pdf_v150 f.stem f.doc opts fsExists fontLoadFails
      drawFails bboxW bboxH workerCb).isOk = true)
    (hbad : (process_pdf_v150 bad.stem bad.doc opts fsExists fontLoadFails drawFails
      bboxW bboxH workerCb).isOk = false) :
    worker_v150 opts fsExists fontLoadFails drawFails bboxW bboxH (pre ++ bad :: rest) =
      ((worker_v150 opts fsExists fontLoadFails drawFails bboxW bboxH pre).1, true) := by
  induction pre with
  | nil =>
    simp only [List.nil_append]
    cases hres : process_pdf_v150 bad.stem bad.doc opts fsExists fontLoadFails drawFails
        bboxW bboxH workerCb with
    | ok outs =>
      rw [hres] at hbad
      simp [Except.isOk, Except.toBool] at hbad
    | error e =>
      simp [worker_v150, hres]
  | cons f t ih =>
    have hf := hpre f (List.mem_cons_self _ _)
    cases hres : process_pdf_v150 f.stem f.doc opts fsExists fontLoadFails drawFails
        bboxW bboxH workerCb with
    | error e =>
      rw [hres] at hf
      simp [Except.isOk, Except.toBool] at hf
    | ok outs =>
      have ih2 := ih fun g hg => hpre g (List.mem_cons_of_mem _ hg)
      simp only [List.cons_append, worker_v150, hres, List.append_eq, ih2]

/-- Claim C3 (amended) witness: queue `[good, bad, good]` — the leading good
file is processed as when it is alone, and the loop aborts at `bad`, leaving
the trailing good file unprocessed. -/
theorem c3_witness :
    (process_pdf_v150 goodFile.stem goodFile.doc opts0 fs0 false false 100 20
      workerCb).isOk = true ∧
    (process_pdf_v150 badFile.stem badFile.doc opts0 fs0 false false 100 20
      workerCb).isOk = false ∧
    worker_v150 opts0 fs0 false false 100 20 ([goodFile] ++ badFile :: [goodFile]) =
      ((worker_v150 opts0 fs0 false false 100 20 [goodFile]).1, true) := by
  have hgood : (process_pdf_v150 goodFile.stem goodFile.doc opts0 fs0 false false
      100 20 workerCb).isOk = true := by
    simp [process_pdf_v150, processPages_v150, apply_watermark_v150, goodFile,
      opts0, wmC, workerCb, Except.isOk, Except.toBool]
  have hbad : (process_pdf_v150 badFile.stem badFile.doc opts0 fs0 false false
      100 20 workerCb).isOk = false := by
    simp [process_pdf_v150, badFile, Except.isOk, Except.toBool]
  refine ⟨hgood, hbad, ?_⟩
  exact c3_amended_first_failure_aborts_queue opts0 fs0 false false 100 20
    [goodFile] badFile [goodFile]
    (by
      intro f hf
      simp only [List.mem_singleton] at hf
      subst hf
      exact hgood)
    hbad

end PdfSealr
